import Mathlib

set_option autoImplicit false

/-!
Verification development for the ephemeral-sandbox orchestrator.

This file gives a shallow embedding, in Lean, of the parts of the code that
the specification's claims talk about:

* the per-modality settings resolver `getEffectiveSettings` and the
  in-process session registry used by `processMessage` (agent bundle);
* the sandbox lifecycle controller: `loadAgentConfig`, `setupSandbox`,
  `pollHealth`, `executeInSandbox`, `executeInSandboxStream`, and the
  gateway handler for `POST /process` (orchestrator);
* the two streaming gateway relay variants present in the source.

Effectful code is embedded as explicit state passing: the environment
(`SandboxEnv`) fixes the outcome and duration of every external operation,
time is a natural-number clock advanced by those durations, and every call
issued to the sandbox provider is recorded in an explicit trace.
-/

/-- JavaScript truthiness of a `string | undefined` value: `undefined` and
the empty string are falsy. -/
def jsTruthy : Option String → Bool
  | none => false
  | some s => !(s == "")

/-- JavaScript `a || b` for `a : string | undefined`: returns `b` when `a`
is `undefined` or empty. -/
def jsOrStr (a : Option String) (b : String) : String :=
  match a with
  | some s => if s == "" then b else s
  | none => b

namespace AgentBundle

/-- Opaque per-server MCP configuration value (the resolver never inspects
it, only the server names). -/
abbrev McpServerConfig := String

/-- Mirrors the `ToolSettings` interface of the agent bundle. -/
structure ToolSettings where
  allowedTools : Option (List String)
  disabledTools : Option (List String)

/-- Mirrors the `McpSettingsOverride` interface of the agent bundle. -/
structure McpSettingsOverride where
  enabledServers : Option (List String)
  disabledServers : Option (List String)

/-- Mirrors the `ModalityRuntimeSettings` interface of the agent bundle. -/
structure ModalityRuntimeSettings where
  maxThinkingTokens : Option Nat
  maxTurns : Option Nat
  toolSettings : Option ToolSettings
  mcpSettings : Option McpSettingsOverride

/-- Mirrors the optional `modalitySettings` block of `AgentConfig`: one
optional override record per known modality name. -/
structure ModalitySettings where
  chat : Option ModalityRuntimeSettings
  email : Option ModalityRuntimeSettings
  voice : Option ModalityRuntimeSettings

/-- Mirrors the `AgentConfig` interface loaded from `agent-config.json`. -/
structure AgentConfig where
  allowedTools : List String
  mcpServers : List (String × McpServerConfig)
  additionalInstructions : String
  maxTurns : Nat
  modalitySettings : Option ModalitySettings

/-- Mirrors the `EffectiveSettings` interface: resolved per-request limits. -/
structure EffectiveSettings where
  maxTurns : Nat
  maxThinkingTokens : Nat
  allowedTools : List String
  mcpServers : List (String × McpServerConfig)

/-- Index `modalitySettings` by a modality name, as the bracket access
`config.modalitySettings?.[modality]` does for the three declared keys. -/
def lookupModality (ms : ModalitySettings) (m : String) : Option ModalityRuntimeSettings :=
  if m = "chat" then ms.chat
  else if m = "email" then ms.email
  else if m = "voice" then ms.voice
  else none

/-- The `modality ? config.modalitySettings?.[modality] : undefined`
expression at the top of `getEffectiveSettings`. -/
def modalityOverride (config : AgentConfig) (modality : Option String) :
    Option ModalityRuntimeSettings :=
  match modality with
  | none => none
  | some m =>
    if m = "" then none
    else
      match config.modalitySettings with
      | none => none
      | some ms => lookupModality ms m

/-- Shallow embedding of `getEffectiveSettings` from the agent bundle:
applies the per-modality override record (or built-in chat/voice defaults)
to the base configuration, then composes the tool allow/deny lists and the
MCP enable/disable lists exactly as the source does. -/
def getEffectiveSettings (config : AgentConfig) (modality : Option String) :
    EffectiveSettings :=
  let modalitySettings := modalityOverride config modality
  let maxTurns0 := config.maxTurns
  let maxThinking0 := 10000
  let limits : Nat × Nat :=
    match modalitySettings with
    | some s => (Option.getD s.maxTurns maxTurns0, Option.getD s.maxThinkingTokens maxThinking0)
    | none =>
      match modality with
      | some m =>
        if m = "chat" then (min maxTurns0 15, 5000)
        else if m = "voice" then (min maxTurns0 10, 5000)
        else (maxTurns0, maxThinking0)
      | none => (maxTurns0, maxThinking0)
  let allowed1 :=
    match (modalitySettings.bind (fun s => s.toolSettings)).bind (fun t => t.allowedTools) with
    | some l => l
    | none => config.allowedTools
  let allowed2 :=
    match (modalitySettings.bind (fun s => s.toolSettings)).bind (fun t => t.disabledTools) with
    | some d => allowed1.filter (fun t => !(d.contains t))
    | none => allowed1
  let mcp1 :=
    match (modalitySettings.bind (fun s => s.mcpSettings)).bind (fun t => t.enabledServers) with
    | some e => config.mcpServers.filter (fun p => e.contains p.1)
    | none => config.mcpServers
  let mcp2 :=
    match (modalitySettings.bind (fun s => s.mcpSettings)).bind (fun t => t.disabledServers) with
    | some d => mcp1.filter (fun p => !(d.contains p.1))
    | none => mcp1
  { maxTurns := limits.1, maxThinkingTokens := limits.2,
    allowedTools := allowed2, mcpServers := mcp2 }

/-- Content block of an assistant message, as inspected by the loop. -/
inductive SdkBlock
  | toolUse (name : String)
  | textBlock
deriving DecidableEq

/-- Structured output decoded from a success result
(`response` plus the metadata fields the loop reads). -/
structure AgentOut where
  response : String
  confidence : String
  guidesUsed : List String
deriving DecidableEq

/-- The SDK messages `processMessage` dispatches on: `system/init` carrying
a session id, assistant messages with content blocks, a success result with
optional structured output, an error result, and anything else. -/
inductive SdkMessage
  | init (sessionId : String)
  | assistant (blocks : List SdkBlock)
  | resultSuccess (structured : Option AgentOut)
  | resultError
  | other
deriving DecidableEq

/-- `Map.get` on the session registry (first binding wins, as keys are
unique under `mapSet`). -/
def mapGet : List (String × String) → String → Option String
  | [], _ => none
  | (k', v') :: rest, k => if k' = k then some v' else mapGet rest k

/-- `Map.set` on the session registry: overwrite the existing binding in
place, or append a new one. -/
def mapSet : List (String × String) → String → String → List (String × String)
  | [], k, v => [(k, v)]
  | (k', v') :: rest, k, v =>
    if k' = k then (k, v) :: rest else (k', v') :: mapSet rest k v

/-- The fixed fallback response used when a success result carries no
structured output. -/
def apologyMessage : String :=
  "I apologize, but I encountered an issue generating a response."

/-- Mutable state of the `for await` loop in `processMessage`: the session
registry plus the accumulators `toolsUsed`, `responseText` and
`structuredMetadata`. -/
structure LoopAcc where
  sessions : List (String × String)
  toolsUsed : List String
  responseText : String
  structuredMetadata : Option AgentOut

/-- Tool names extracted from the content blocks of one assistant message. -/
def toolUsesOfBlocks (blocks : List SdkBlock) : List String :=
  blocks.filterMap (fun b =>
    match b with
    | SdkBlock.toolUse n => some n
    | SdkBlock.textBlock => none)

/-- One iteration of the `for await` loop body of `processMessage`. -/
def processLoopStep (conversationId : Option String) (acc : LoopAcc)
    (msg : SdkMessage) : LoopAcc :=
  match msg with
  | SdkMessage.init sid =>
    if jsTruthy conversationId && !(sid == "") then
      { acc with sessions := mapSet acc.sessions (conversationId.getD "") sid }
    else acc
  | SdkMessage.assistant blocks =>
    { acc with toolsUsed := acc.toolsUsed ++ toolUsesOfBlocks blocks }
  | SdkMessage.resultSuccess structured =>
    match structured with
    | some out =>
      { acc with responseText := out.response, structuredMetadata := some out }
    | none =>
      { acc with responseText := apologyMessage }
  | SdkMessage.resultError => acc
  | SdkMessage.other => acc

/-- The value `processMessage` resolves with. -/
structure ProcessMessageResultM where
  response : String
  guidesUsed : List String
  confidence : String
  toolsUsed : List String
deriving DecidableEq

/-- Observable outcome of one `processMessage` turn: the continuation token
included in the SDK invocation (the `resume` option), the session registry
after the turn, and the resolved result. -/
structure TurnOut where
  resume : Option String
  sessions : List (String × String)
  result : ProcessMessageResultM

/-- Shallow embedding of `processMessage`: reads the registry before the
SDK invocation to decide the `resume` option, folds the SDK message stream
through the loop body, and assembles the result with the source's fallback
rules for `response`, `guidesUsed` and `confidence`. -/
def processMessage (sessions0 : List (String × String))
    (conversationId : Option String) (events : List SdkMessage) : TurnOut :=
  let existingSessionId : Option String :=
    if jsTruthy conversationId then mapGet sessions0 (conversationId.getD "") else none
  let resume : Option String :=
    if jsTruthy existingSessionId then existingSessionId else none
  let acc := events.foldl (processLoopStep conversationId)
    { sessions := sessions0, toolsUsed := [], responseText := "",
      structuredMetadata := none }
  { resume := resume
    sessions := acc.sessions
    result :=
      { response := acc.responseText
        guidesUsed :=
          match acc.structuredMetadata with
          | some out => out.guidesUsed
          | none => acc.toolsUsed.filter (fun t => t == "Read")
        confidence :=
          jsOrStr (acc.structuredMetadata.map (fun out => out.confidence))
            (if acc.toolsUsed.length > 0 then "high" else "medium")
        toolsUsed := acc.toolsUsed } }

/-- Continuation token a turn's event stream leaves in the registry: the
session id of the last `init` message with a truthy id. -/
def tokenOfMessage : SdkMessage → Option String
  | SdkMessage.init sid => if sid == "" then none else some sid
  | _ => none

/-- Last truthy `init` session id of an event stream. -/
def capturedToken : List SdkMessage → Option String
  | [] => none
  | msg :: rest =>
    match capturedToken rest with
    | some t => some t
    | none => tokenOfMessage msg

/-- Whether any message of the stream is a success result. -/
def hasResultSuccess : List SdkMessage → Bool
  | [] => false
  | SdkMessage.resultSuccess _ :: _ => true
  | _ :: rest => hasResultSuccess rest

/-- All tool names used across the event stream, in order. -/
def toolUses : List SdkMessage → List String
  | [] => []
  | SdkMessage.assistant blocks :: rest => toolUsesOfBlocks blocks ++ toolUses rest
  | _ :: rest => toolUses rest

end AgentBundle

namespace Orchestrator

/-- Timeout constants of the sandbox manager. -/
def HEALTH_POLL_TIMEOUT_MS : Nat := 30000

/-- Fixed sleep between health poll attempts. -/
def HEALTH_POLL_INTERVAL_MS : Nat := 500

/-- Outcome of one health poll attempt, with the wall-clock time the
attempt takes: the fetch resolves with a success status (`res.ok`, the
duration including the body read), resolves with a non-2xx status, or
rejects (connection refused or the 2 s per-attempt abort). -/
inductive AttemptOutcome
  | ok (dur : Nat)
  | notOk (dur : Nat)
  | failed (dur : Nat)

/-- Duration of an attempt. -/
def AttemptOutcome.dur : AttemptOutcome → Nat
  | AttemptOutcome.ok d => d
  | AttemptOutcome.notOk d => d
  | AttemptOutcome.failed d => d

/-- Whether the attempt returned a success status. -/
def AttemptOutcome.isOk : AttemptOutcome → Bool
  | AttemptOutcome.ok _ => true
  | AttemptOutcome.notOk _ => false
  | AttemptOutcome.failed _ => false

/-- Result of `pollHealth`: either the poll returned (with the absolute
time of the return and the number of attempts made), or the loop guard
failed and the timeout error was raised (at the recorded absolute time). -/
inductive PollOutcome
  | ready (endTime : Nat) (attempts : Nat)
  | timedOut (failTime : Nat)
deriving DecidableEq

/-- The `while (Date.now() < deadline)` loop of `pollHealth`, with time
passed explicitly: each iteration runs one fetch attempt (returning on
success) and otherwise sleeps the fixed interval.  The loop advances the
clock by at least the interval per iteration, so a fuel of
`timeoutMs / interval + 1` is enough; under the invariant
`deadline ≤ now + fuel * interval` the fuel-exhausted branch coincides
with the loop-guard failure of the source. -/
def pollHealthAux (oc : Nat → AttemptOutcome) (deadline : Nat) :
    Nat → Nat → Nat → PollOutcome
  | 0, _, now => PollOutcome.timedOut now
  | fuel + 1, attempt, now =>
    if now < deadline then
      match oc attempt with
      | AttemptOutcome.ok dur => PollOutcome.ready (now + dur) (attempt + 1)
      | AttemptOutcome.notOk dur =>
        pollHealthAux oc deadline fuel (attempt + 1) (now + dur + HEALTH_POLL_INTERVAL_MS)
      | AttemptOutcome.failed dur =>
        pollHealthAux oc deadline fuel (attempt + 1) (now + dur + HEALTH_POLL_INTERVAL_MS)
    else PollOutcome.timedOut now

/-- Shallow embedding of `pollHealth(domainUrl, timeoutMs)`: polls from
time `start` against the absolute deadline `start + timeoutMs`. -/
def pollHealth (oc : Nat → AttemptOutcome) (start timeoutMs : Nat) : PollOutcome :=
  pollHealthAux oc (start + timeoutMs) (timeoutMs / HEALTH_POLL_INTERVAL_MS + 1) 0 start

/-- Wall-clock time at which the loop would test its guard before attempt
`attempt + k`, starting the poll at attempt index `attempt` and time
`now`: each earlier attempt adds its duration plus the fixed interval. -/
def checkTime (oc : Nat → AttemptOutcome) : Nat → Nat → Nat → Nat
  | _, now, 0 => now
  | attempt, now, k + 1 =>
    checkTime oc (attempt + 1) (now + (oc attempt).dur + HEALTH_POLL_INTERVAL_MS) k

/-- Calls issued to the sandbox provider, in order. -/
inductive PCall
  | create
  | writeFiles
  | runCommand
  | domain
  | stop
deriving DecidableEq

/-- Errors raised by the lifecycle controller. -/
inductive SbError
  | configNotFound (what : String)
  | bundleNotFound
  | createFailed
  | writeFailed
  | installFailed (exitCode : Nat)
  | healthTimeout
  | fetchFailed
  | upstreamError
deriving DecidableEq

/-- Environment fixing the outcome and duration of every external
operation one request performs.  Host-filesystem reads are modelled as
instantaneous; every provider and network operation carries a duration by
which the clock advances. -/
structure SandboxEnv where
  agentDirExists : Bool
  claudeMdExists : Bool
  configJsonExists : Bool
  bundleExists : Bool
  snapshotId : Option String
  createOk : Bool
  createDur : Nat
  writeOk : Bool
  writeDur : Nat
  installExitCode : Nat
  installDur : Nat
  startDur : Nat
  health : Nat → AttemptOutcome
  fetchThrows : Bool
  fetchOk : Bool
  fetchHasBody : Bool
  fetchDur : Nat
  respPayload : String
  stopDur : Nat

/-- Shallow embedding of `loadAgentConfig(agentId)` from the orchestrator
config loader: checks the agent directory, then `CLAUDE.md`, then
`agent-config.json`, throwing on the first missing one.  All three errors
are the spec's `ConfigNotFound` class. -/
def loadAgentConfig (env : SandboxEnv) : Except SbError Unit :=
  if env.agentDirExists then
    if env.claudeMdExists then
      if env.configJsonExists then Except.ok ()
      else Except.error (SbError.configNotFound "agent-config.json")
    else Except.error (SbError.configNotFound "CLAUDE.md")
  else Except.error (SbError.configNotFound "agent config directory")

/-- Shallow embedding of `loadAgentBundle()`: throws when the pre-built
agent bundle is missing on the controlling host. -/
def loadAgentBundle (env : SandboxEnv) : Except SbError Unit :=
  if env.bundleExists then Except.ok () else Except.error SbError.bundleNotFound

/-- Mirrors the `ExecutionTiming` interface of the orchestrator types. -/
structure ExecutionTiming where
  sandboxCreate : Nat
  fileWrite : Nat
  serverStart : Nat
  healthPoll : Nat
  agentProcess : Nat
  total : Nat
deriving DecidableEq

/-- The all-zero timing record `executeInSandbox` starts from. -/
def zeroTiming : ExecutionTiming :=
  { sandboxCreate := 0, fileWrite := 0, serverStart := 0, healthPoll := 0,
    agentProcess := 0, total := 0 }

/-- Outcome of `setupSandbox`: the provider calls issued, the clock at the
end, the timing fields written so far, and the error raised (if any). -/
structure SetupResult where
  trace : List PCall
  endTime : Nat
  timing : ExecutionTiming
  err : Option SbError

/-- Steps 4–5 of `setupSandbox`: start the agent server detached, resolve
the sandbox domain, and poll health until ready or deadline. -/
def setupTail (env : SandboxEnv) (trace0 : List PCall) (t : Nat)
    (tm : ExecutionTiming) : SetupResult :=
  let t4 := t + env.startDur
  let tm4 := { tm with serverStart := env.startDur }
  let trace := trace0 ++ [PCall.runCommand, PCall.domain]
  match pollHealth env.health t4 HEALTH_POLL_TIMEOUT_MS with
  | PollOutcome.timedOut ft =>
    { trace := trace, endTime := ft, timing := tm4, err := some SbError.healthTimeout }
  | PollOutcome.ready ht _ =>
    { trace := trace, endTime := ht,
      timing := { tm4 with healthPoll := ht - t4 }, err := none }

/-- Shallow embedding of `setupSandbox`: load the agent config and bundle
from the host, create the sandbox (from snapshot or bare image), write the
files, install dependencies when no snapshot is used, start the server and
poll health.  Each timing field is written only after the corresponding
await succeeds, as in the source.  The clock starts at 0, the request's
`totalStart`. -/
def setupSandbox (env : SandboxEnv) : SetupResult :=
  match loadAgentConfig env with
  | Except.error e => { trace := [], endTime := 0, timing := zeroTiming, err := some e }
  | Except.ok _ =>
  match loadAgentBundle env with
  | Except.error e => { trace := [], endTime := 0, timing := zeroTiming, err := some e }
  | Except.ok _ =>
    let t1 := env.createDur
    if env.createOk then
      let tm1 := { zeroTiming with sandboxCreate := env.createDur }
      let t2 := t1 + env.writeDur
      if env.writeOk then
        let tm2 := { tm1 with fileWrite := env.writeDur }
        match env.snapshotId with
        | none =>
          let t3 := t2 + env.installDur
          if env.installExitCode = 0 then
            setupTail env [PCall.create, PCall.writeFiles, PCall.runCommand] t3 tm2
          else
            { trace := [PCall.create, PCall.writeFiles, PCall.runCommand],
              endTime := t3, timing := tm2,
              err := some (SbError.installFailed env.installExitCode) }
        | some _ => setupTail env [PCall.create, PCall.writeFiles] t2 tm2
      else
        { trace := [PCall.create, PCall.writeFiles], endTime := t2, timing := tm1,
          err := some SbError.writeFailed }
    else
      { trace := [PCall.create], endTime := t1, timing := zeroTiming,
        err := some SbError.createFailed }

/-- Outcome of one buffered request: provider calls issued, and either the
decoded agent reply with its timing, or the raised error. -/
structure ExecResult where
  trace : List PCall
  result : Except SbError (String × ExecutionTiming)

/-- Shallow embedding of `executeInSandbox`.  The local `sandbox` variable
of the source is assigned only after `setupSandbox` returns, so when setup
raises (even after a successful create) the `finally` block sees `null`
and issues no `stop`; on the post-setup paths the `finally` block issues
exactly one `stop` (its own failure being swallowed). -/
def executeInSandbox (env : SandboxEnv) : ExecResult :=
  let s := setupSandbox env
  match s.err with
  | some e => { trace := s.trace, result := Except.error e }
  | none =>
    if env.fetchThrows then
      { trace := s.trace ++ [PCall.stop], result := Except.error SbError.fetchFailed }
    else if env.fetchOk then
      let tEnd := s.endTime + env.fetchDur
      let tm := { s.timing with agentProcess := env.fetchDur, total := tEnd }
      { trace := s.trace ++ [PCall.stop], result := Except.ok (env.respPayload, tm) }
    else
      { trace := s.trace ++ [PCall.stop], result := Except.error SbError.upstreamError }

/-- Outcome of one streaming request, up to handing the stream and the
`cleanup` callback to the caller. -/
structure StreamExecResult where
  trace : List PCall
  result : Except SbError Unit

/-- Shallow embedding of `executeInSandboxStream`.  There is no
try/finally here: a setup failure propagates without any `stop`, a fetch
rejection likewise bypasses the explicit `stop` of the non-2xx branch, and
on success the `stop` is deferred to the returned `cleanup` callback. -/
def executeInSandboxStream (env : SandboxEnv) : StreamExecResult :=
  let s := setupSandbox env
  match s.err with
  | some e => { trace := s.trace, result := Except.error e }
  | none =>
    if env.fetchThrows then
      { trace := s.trace, result := Except.error SbError.fetchFailed }
    else if !env.fetchOk || !env.fetchHasBody then
      { trace := s.trace ++ [PCall.stop], result := Except.error SbError.upstreamError }
    else
      { trace := s.trace, result := Except.ok () }

/-- The unmeasured dependency-installation time of a request: the npm
install runs (and takes `installDur`) exactly when no snapshot is used,
and no timing field records it. -/
def installPart (env : SandboxEnv) : Nat :=
  match env.snapshotId with
  | none => env.installDur
  | some _ => 0

/-- Number of `stop` calls in a provider trace. -/
def countStop : List PCall → Nat
  | [] => 0
  | PCall.stop :: rest => countStop rest + 1
  | _ :: rest => countStop rest

/-- Body of `POST /process` as the gateway parses it: each field either
absent or present (a present empty string is falsy, as in the source). -/
structure ProcessBody where
  message : Option String
  agentId : Option String

/-- Observable gateway reply: HTTP status and the `error` field, if any. -/
structure GatewayResponse where
  status : Nat
  error : Option String
deriving DecidableEq

/-- Error message surfaced on the 500 path. -/
def errMessage : SbError → String
  | SbError.configNotFound w => "Agent config missing: " ++ w
  | SbError.bundleNotFound => "Agent bundle not found"
  | SbError.createFailed => "Sandbox create failed"
  | SbError.writeFailed => "Sandbox writeFiles failed"
  | SbError.installFailed _ => "npm install failed"
  | SbError.healthTimeout => "Health check timed out"
  | SbError.fetchFailed => "Agent process request failed"
  | SbError.upstreamError => "Agent process request failed (non-2xx)"

/-- Shallow embedding of the `POST /process` gateway handler: validate the
body (400 on missing or empty `message`, then `agentId`, with no provider
call), otherwise run the request in a sandbox and map its outcome to 200
or 500.  The second component is the provider-call trace of the request. -/
def handleProcess (body : ProcessBody) (env : SandboxEnv) :
    GatewayResponse × List PCall :=
  if !(jsTruthy body.message) then
    ({ status := 400, error := some "message is required" }, [])
  else if !(jsTruthy body.agentId) then
    ({ status := 400, error := some "agentId is required" }, [])
  else
    let r := executeInSandbox env
    match r.result with
    | Except.ok _ => ({ status := 200, error := none }, r.trace)
    | Except.error e => ({ status := 500, error := some (errMessage e) }, r.trace)

end Orchestrator

namespace StreamRelay

/-- A byte chunk. -/
abbrev Chunk := List Nat

/-- A WHATWG `ReadableStream` as the relay code observes it: the chunks
still to be read, and whether a reader lock is held. -/
structure StreamObj where
  pending : List Chunk
  locked : Bool
deriving DecidableEq

/-- `stream.pipeTo(sink)`: acquires the reader lock immediately and moves
the chunks to the sink.  `abortAfter = some k` models the pipe being
aborted after `k` chunks (the rejection is swallowed by `.catch`); the
lock is not released on the original stream either way.  Piping an
already-locked stream moves nothing. -/
def pipeToDrain (s : StreamObj) (abortAfter : Option Nat) :
    StreamObj × List Chunk :=
  if s.locked then (s, [])
  else
    ({ pending := [], locked := true },
      match abortAfter with
      | none => s.pending
      | some k => s.pending.take k)

/-- The server serialising a `Response` body: reads the whole stream, or
fails when the stream is already locked by another reader. -/
def readBodyAll (s : StreamObj) : Option (List Chunk) :=
  if s.locked then none else some s.pending

/-- Observable outcome of one streaming relay: the chunks delivered to the
caller (`none` when the body read failed), and how many times `cleanup`
ran. -/
structure RelayResult where
  delivered : Option (List Chunk)
  cleanups : Nat
deriving DecidableEq

/-- The `/process/stream` handler variant of `server.ts`: build
`new Response(stream)` over the upstream stream itself, then pipe that
same stream into a fresh dummy `WritableStream`, with
`.catch(() => ...).finally(() => cleanup())`.  The pipe locks the single
upstream stream, and `.finally` fires exactly once when the pipe settles
(completion or abort); the server then tries to read the response body. -/
def relayResponseVariant (upstream : List Chunk) (abortAfter : Option Nat) :
    RelayResult :=
  let s0 : StreamObj := { pending := upstream, locked := false }
  let piped := pipeToDrain s0 abortAfter
  let cleanups := 1
  { delivered := readBodyAll piped.1, cleanups := cleanups }

/-- The `/process/stream` handler variant of the other source copy: pipe
the upstream through a fresh `TransformStream` (identity transform) with
the same `.catch`/`.finally` cleanup, and return its readable side, which
yields exactly the chunks written to the writable side. -/
def relayTransformVariant (upstream : List Chunk) (abortAfter : Option Nat) :
    RelayResult :=
  let s0 : StreamObj := { pending := upstream, locked := false }
  let piped := pipeToDrain s0 abortAfter
  let cleanups := 1
  let readable : StreamObj := { pending := piped.2, locked := false }
  { delivered := readBodyAll readable, cleanups := cleanups }

end StreamRelay

section ConcreteInstances

open Orchestrator AgentBundle

/-- A fully healthy environment: snapshot available, every operation
instantaneous and successful. -/
def envAllOk : SandboxEnv :=
  { agentDirExists := true, claudeMdExists := true, configJsonExists := true,
    bundleExists := true, snapshotId := some "snap", createOk := true,
    createDur := 0, writeOk := true, writeDur := 0, installExitCode := 0,
    installDur := 0, startDur := 0, health := fun _ => AttemptOutcome.ok 0,
    fetchThrows := false, fetchOk := true, fetchHasBody := true,
    fetchDur := 0, respPayload := "ok", stopDur := 0 }

/-- Environment whose `CLAUDE.md` is missing on the controlling host. -/
def envNoClaudeMd : SandboxEnv := { envAllOk with claudeMdExists := false }

/-- Environment where the sandbox is created but `writeFiles` rejects. -/
def envLeakWrite : SandboxEnv := { envAllOk with writeOk := false }

/-- Environment where setup succeeds but the proxied streaming fetch
rejects. -/
def envLeakFetch : SandboxEnv := { envAllOk with fetchThrows := true }

/-- Environment with no snapshot and a 5-second dependency installation,
otherwise healthy, with nonzero stage durations. -/
def envInstallSlow : SandboxEnv :=
  { envAllOk with
    snapshotId := none
    createDur := 100
    writeDur := 10
    installDur := 5000
    startDur := 5
    health := fun _ => AttemptOutcome.ok 20
    fetchDur := 200 }

/-- A health endpoint that never answers, each attempt rejecting after
1800 ms (within the 2 s per-attempt abort). -/
def ocFail1800 : Nat → AttemptOutcome := fun _ => AttemptOutcome.failed 1800

/-- A health endpoint that never answers, each attempt rejecting
immediately (connection refused). -/
def ocFailFast : Nat → AttemptOutcome := fun _ => AttemptOutcome.failed 0

/-- A health endpoint where every attempt rejects at the 2 s per-attempt
cap until it starts answering success from attempt 59 on. -/
def ocSlowThenOk : Nat → AttemptOutcome := fun k =>
  if k < 59 then AttemptOutcome.failed 2000 else AttemptOutcome.ok 0

/-- A health endpoint failing instantly for 3 attempts, then answering. -/
def ocThreeThenOk : Nat → AttemptOutcome := fun k =>
  if k < 3 then AttemptOutcome.failed 0 else AttemptOutcome.ok 0

/-- Request body carrying a message but no `agentId`. -/
def bodyNoAgent : Orchestrator.ProcessBody := { message := some "hi", agentId := none }

/-- Witness tool settings: an explicit allow-list and a deny-list. -/
def tsW : ToolSettings :=
  { allowedTools := some ["Read", "Edit"], disabledTools := some ["Edit"] }

/-- Witness MCP settings: an enable-list only. -/
def msW : McpSettingsOverride :=
  { enabledServers := some ["srvA"], disabledServers := none }

/-- Witness chat override record. -/
def sW : ModalityRuntimeSettings :=
  { maxThinkingTokens := none, maxTurns := none, toolSettings := some tsW,
    mcpSettings := some msW }

/-- Witness base agent configuration with a chat override. -/
def cfgW : AgentConfig :=
  { allowedTools := ["Read", "Write", "Bash"],
    mcpServers := [("srvA", "a"), ("srvB", "b")],
    additionalInstructions := "", maxTurns := 20,
    modalitySettings := some { chat := some sW, email := none, voice := none } }

end ConcreteInstances

namespace Orchestrator

/-- The clock never decreases across attempts. -/
lemma checkTime_ge (oc : Nat → AttemptOutcome) :
    ∀ k attempt now, now ≤ checkTime oc attempt now k := by
  intro k
  induction k with
  | zero => intro attempt now; simp [checkTime]
  | succ k ih =>
    intro attempt now
    simp only [checkTime]
    exact le_trans (le_trans (Nat.le_add_right _ _) (Nat.le_add_right _ _)) (ih _ _)

/-- With adequate fuel, a timeout is only raised at or after the deadline
(the loop guard has failed). -/
lemma pollHealthAux_timedOut_ge (oc : Nat → AttemptOutcome) (deadline : Nat) :
    ∀ fuel attempt now t,
      deadline ≤ now + fuel * HEALTH_POLL_INTERVAL_MS →
      pollHealthAux oc deadline fuel attempt now = PollOutcome.timedOut t →
      deadline ≤ t := by
  intro fuel
  induction fuel with
  | zero =>
    intro attempt now t hinv h
    simp only [pollHealthAux, PollOutcome.timedOut.injEq] at h
    subst h
    simpa using hinv
  | succ fuel ih =>
    intro attempt now t hinv h
    simp only [pollHealthAux] at h
    by_cases hn : now < deadline
    · rw [if_pos hn] at h
      cases hoc : oc attempt with
      | ok d => rw [hoc] at h; simp at h
      | notOk d =>
        rw [hoc] at h
        refine ih (attempt + 1) (now + d + HEALTH_POLL_INTERVAL_MS) t ?_ h
        simp only [HEALTH_POLL_INTERVAL_MS] at hinv ⊢
        omega
      | failed d =>
        rw [hoc] at h
        refine ih (attempt + 1) (now + d + HEALTH_POLL_INTERVAL_MS) t ?_ h
        simp only [HEALTH_POLL_INTERVAL_MS] at hinv ⊢
        omega
    · rw [if_neg hn] at h
      simp only [PollOutcome.timedOut.injEq] at h
      omega

/-- With adequate fuel, the loop times out exactly when no attempt whose
guard-check happens before the deadline returns a success status. -/
lemma pollHealthAux_timedOut_iff (oc : Nat → AttemptOutcome) (deadline : Nat) :
    ∀ fuel attempt now,
      deadline ≤ now + fuel * HEALTH_POLL_INTERVAL_MS →
      ((∃ t, pollHealthAux oc deadline fuel attempt now = PollOutcome.timedOut t) ↔
        ¬ ∃ k, checkTime oc attempt now k < deadline ∧ (oc (attempt + k)).isOk = true) := by
  intro fuel
  induction fuel with
  | zero =>
    intro attempt now hinv
    simp only [Nat.zero_mul, Nat.add_zero] at hinv
    constructor
    · rintro ⟨t, -⟩ ⟨k, hk, -⟩
      have := checkTime_ge oc k attempt now
      omega
    · intro _
      exact ⟨now, rfl⟩
  | succ fuel ih =>
    intro attempt now hinv
    simp only [pollHealthAux]
    by_cases hn : now < deadline
    · rw [if_pos hn]
      cases hoc : oc attempt with
      | ok d =>
        constructor
        · rintro ⟨t, ht⟩
          simp at ht
        · intro hno
          exfalso
          refine hno ⟨0, ?_, ?_⟩
          · simpa [checkTime] using hn
          · simp [hoc, AttemptOutcome.isOk]
      | notOk d =>
        have hinv' : deadline ≤ (now + d + HEALTH_POLL_INTERVAL_MS) + fuel * HEALTH_POLL_INTERVAL_MS := by
          simp only [HEALTH_POLL_INTERVAL_MS] at hinv ⊢
          omega
        rw [ih (attempt + 1) (now + d + HEALTH_POLL_INTERVAL_MS) hinv']
        apply not_congr
        constructor
        · rintro ⟨k, hk, hok⟩
          refine ⟨k + 1, ?_, ?_⟩
          · simpa [checkTime, hoc] using hk
          · rw [show attempt + (k + 1) = attempt + 1 + k by omega]
            exact hok
        · rintro ⟨k, hk, hok⟩
          match k with
          | 0 =>
            rw [Nat.add_zero] at hok
            rw [hoc] at hok
            simp [AttemptOutcome.isOk] at hok
          | k + 1 =>
            refine ⟨k, ?_, ?_⟩
            · simpa [checkTime, hoc] using hk
            · rw [show attempt + 1 + k = attempt + (k + 1) by omega]
              exact hok
      | failed d =>
        have hinv' : deadline ≤ (now + d + HEALTH_POLL_INTERVAL_MS) + fuel * HEALTH_POLL_INTERVAL_MS := by
          simp only [HEALTH_POLL_INTERVAL_MS] at hinv ⊢
          omega
        rw [ih (attempt + 1) (now + d + HEALTH_POLL_INTERVAL_MS) hinv']
        apply not_congr
        constructor
        · rintro ⟨k, hk, hok⟩
          refine ⟨k + 1, ?_, ?_⟩
          · simpa [checkTime, hoc] using hk
          · rw [show attempt + (k + 1) = attempt + 1 + k by omega]
            exact hok
        · rintro ⟨k, hk, hok⟩
          match k with
          | 0 =>
            rw [Nat.add_zero] at hok
            rw [hoc] at hok
            simp [AttemptOutcome.isOk] at hok
          | k + 1 =>
            refine ⟨k, ?_, ?_⟩
            · simpa [checkTime, hoc] using hk
            · rw [show attempt + 1 + k = attempt + (k + 1) by omega]
              exact hok
    · rw [if_neg hn]
      constructor
      · rintro ⟨t, -⟩ ⟨k, hk, -⟩
        have := checkTime_ge oc k attempt now
        omega
      · intro _
        exact ⟨now, rfl⟩

/-- If every attempt settles within the 2 s per-attempt cap, a timeout is
raised strictly before `deadline + 2500` (one worst-case attempt plus one
sleep past the last passing guard check). -/
lemma pollHealthAux_timedOut_lt (oc : Nat → AttemptOutcome) (deadline : Nat)
    (hcap : ∀ k, (oc k).dur ≤ 2000) :
    ∀ fuel attempt now t,
      now < deadline + 2500 →
      pollHealthAux oc deadline fuel attempt now = PollOutcome.timedOut t →
      t < deadline + 2500 := by
  intro fuel
  induction fuel with
  | zero =>
    intro attempt now t hlt h
    simp only [pollHealthAux, PollOutcome.timedOut.injEq] at h
    omega
  | succ fuel ih =>
    intro attempt now t hlt h
    simp only [pollHealthAux] at h
    by_cases hn : now < deadline
    · rw [if_pos hn] at h
      cases hoc : oc attempt with
      | ok d => rw [hoc] at h; simp at h
      | notOk d =>
        rw [hoc] at h
        have hd : d ≤ 2000 := by simpa [hoc] using hcap attempt
        refine ih (attempt + 1) (now + d + HEALTH_POLL_INTERVAL_MS) t ?_ h
        simp only [HEALTH_POLL_INTERVAL_MS]
        omega
      | failed d =>
        rw [hoc] at h
        have hd : d ≤ 2000 := by simpa [hoc] using hcap attempt
        refine ih (attempt + 1) (now + d + HEALTH_POLL_INTERVAL_MS) t ?_ h
        simp only [HEALTH_POLL_INTERVAL_MS]
        omega
    · rw [if_neg hn] at h
      simp only [PollOutcome.timedOut.injEq] at h
      omega

/-- A successful poll that made `n` attempts slept through at least
`n - attempt - 1` full intervals. -/
lemma pollHealthAux_ready_lower (oc : Nat → AttemptOutcome) (deadline : Nat) :
    ∀ fuel attempt now t n,
      pollHealthAux oc deadline fuel attempt now = PollOutcome.ready t n →
      attempt < n ∧ now + (n - attempt - 1) * HEALTH_POLL_INTERVAL_MS ≤ t := by
  intro fuel
  induction fuel with
  | zero =>
    intro attempt now t n h
    simp [pollHealthAux] at h
  | succ fuel ih =>
    intro attempt now t n h
    simp only [pollHealthAux] at h
    by_cases hn : now < deadline
    · rw [if_pos hn] at h
      cases hoc : oc attempt with
      | ok d =>
        rw [hoc] at h
        simp only [PollOutcome.ready.injEq] at h
        obtain ⟨ht, hnn⟩ := h
        subst ht
        subst hnn
        constructor
        · omega
        · simp only [HEALTH_POLL_INTERVAL_MS]
          omega
      | notOk d =>
        rw [hoc] at h
        have := ih (attempt + 1) (now + d + HEALTH_POLL_INTERVAL_MS) t n h
        simp only [HEALTH_POLL_INTERVAL_MS] at this ⊢
        omega
      | failed d =>
        rw [hoc] at h
        have := ih (attempt + 1) (now + d + HEALTH_POLL_INTERVAL_MS) t n h
        simp only [HEALTH_POLL_INTERVAL_MS] at this ⊢
        omega
    · rw [if_neg hn] at h
      simp at h

/-- A successful poll ends at or after the time it started. -/
lemma pollHealthAux_ready_ge (oc : Nat → AttemptOutcome) (deadline : Nat)
    (fuel attempt now t n : Nat)
    (h : pollHealthAux oc deadline fuel attempt now = PollOutcome.ready t n) :
    now ≤ t :=
  le_trans (Nat.le_add_right _ _)
    (pollHealthAux_ready_lower oc deadline fuel attempt now t n h).2

/-- If the first `N` attempts (from `attempt`) fail, attempt `attempt + N`
succeeds, and its guard check happens before the deadline, the loop
returns ready at that attempt's completion time. -/
lemma pollHealthAux_first_ok (oc : Nat → AttemptOutcome) (deadline : Nat) :
    ∀ N fuel attempt now,
      deadline ≤ now + fuel * HEALTH_POLL_INTERVAL_MS →
      (∀ j, j < N → (oc (attempt + j)).isOk = false) →
      (oc (attempt + N)).isOk = true →
      checkTime oc attempt now N < deadline →
      pollHealthAux oc deadline fuel attempt now
        = PollOutcome.ready (checkTime oc attempt now N + (oc (attempt + N)).dur)
            (attempt + N + 1) := by
  intro N
  induction N with
  | zero =>
    intro fuel attempt now hinv hfail hok hct
    simp only [checkTime] at hct ⊢
    match fuel with
    | 0 =>
      simp only [Nat.zero_mul, Nat.add_zero] at hinv
      omega
    | fuel + 1 =>
      simp only [pollHealthAux, if_pos hct]
      cases hoc : oc attempt with
      | ok d => simp [hoc, AttemptOutcome.dur]
      | notOk d => rw [Nat.add_zero, hoc] at hok; simp [AttemptOutcome.isOk] at hok
      | failed d => rw [Nat.add_zero, hoc] at hok; simp [AttemptOutcome.isOk] at hok
  | succ N ihN =>
    intro fuel attempt now hinv hfail hok hct
    have h0 : (oc attempt).isOk = false := by
      simpa using hfail 0 (Nat.succ_pos N)
    have hnow : now < deadline := lt_of_le_of_lt (checkTime_ge oc (N + 1) attempt now) hct
    match fuel with
    | 0 =>
      simp only [Nat.zero_mul, Nat.add_zero] at hinv
      omega
    | fuel + 1 =>
      simp only [pollHealthAux, if_pos hnow]
      cases hoc : oc attempt with
      | ok d => rw [hoc] at h0; simp [AttemptOutcome.isOk] at h0
      | notOk d =>
        have hct' : checkTime oc (attempt + 1) (now + d + HEALTH_POLL_INTERVAL_MS) N
            = checkTime oc attempt now (N + 1) := by
          simp [checkTime, hoc, AttemptOutcome.dur]
        have hinv' : deadline ≤ (now + d + HEALTH_POLL_INTERVAL_MS) + fuel * HEALTH_POLL_INTERVAL_MS := by
          simp only [HEALTH_POLL_INTERVAL_MS] at hinv ⊢
          omega
        have hfail' : ∀ j, j < N → (oc (attempt + 1 + j)).isOk = false := by
          intro j hj
          rw [show attempt + 1 + j = attempt + (j + 1) by omega]
          exact hfail (j + 1) (by omega)
        have hok' : (oc (attempt + 1 + N)).isOk = true := by
          rw [show attempt + 1 + N = attempt + (N + 1) by omega]
          exact hok
        have hct'' : checkTime oc (attempt + 1) (now + d + HEALTH_POLL_INTERVAL_MS) N < deadline := by
          rw [hct']
          exact hct
        have hrec := ihN fuel (attempt + 1) (now + d + HEALTH_POLL_INTERVAL_MS) hinv' hfail' hok' hct''
        have hrw : PollOutcome.ready
              (checkTime oc (attempt + 1) (now + d + HEALTH_POLL_INTERVAL_MS) N
                + (oc (attempt + 1 + N)).dur) (attempt + 1 + N + 1)
            = PollOutcome.ready
              (checkTime oc attempt now (N + 1) + (oc (attempt + (N + 1))).dur)
              (attempt + (N + 1) + 1) := by
          rw [hct', show attempt + 1 + N = attempt + (N + 1) by omega]
        exact hrec.trans hrw
      | failed d =>
        have hct' : checkTime oc (attempt + 1) (now + d + HEALTH_POLL_INTERVAL_MS) N
            = checkTime oc attempt now (N + 1) := by
          simp [checkTime, hoc, AttemptOutcome.dur]
        have hinv' : deadline ≤ (now + d + HEALTH_POLL_INTERVAL_MS) + fuel * HEALTH_POLL_INTERVAL_MS := by
          simp only [HEALTH_POLL_INTERVAL_MS] at hinv ⊢
          omega
        have hfail' : ∀ j, j < N → (oc (attempt + 1 + j)).isOk = false := by
          intro j hj
          rw [show attempt + 1 + j = attempt + (j + 1) by omega]
          exact hfail (j + 1) (by omega)
        have hok' : (oc (attempt + 1 + N)).isOk = true := by
          rw [show attempt + 1 + N = attempt + (N + 1) by omega]
          exact hok
        have hct'' : checkTime oc (attempt + 1) (now + d + HEALTH_POLL_INTERVAL_MS) N < deadline := by
          rw [hct']
          exact hct
        have hrec := ihN fuel (attempt + 1) (now + d + HEALTH_POLL_INTERVAL_MS) hinv' hfail' hok' hct''
        have hrw : PollOutcome.ready
              (checkTime oc (attempt + 1) (now + d + HEALTH_POLL_INTERVAL_MS) N
                + (oc (attempt + 1 + N)).dur) (attempt + 1 + N + 1)
            = PollOutcome.ready
              (checkTime oc attempt now (N + 1) + (oc (attempt + (N + 1))).dur)
              (attempt + (N + 1) + 1) := by
          rw [hct', show attempt + 1 + N = attempt + (N + 1) by omega]
        exact hrec.trans hrw

/-- Each attempt's guard check happens at least one full interval after
the previous one. -/
lemma checkTime_lower (oc : Nat → AttemptOutcome) :
    ∀ k attempt now, now + k * HEALTH_POLL_INTERVAL_MS ≤ checkTime oc attempt now k := by
  intro k
  induction k with
  | zero => intro attempt now; simp [checkTime]
  | succ k ih =>
    intro attempt now
    simp only [checkTime]
    have := ih (attempt + 1) (now + (oc attempt).dur + HEALTH_POLL_INTERVAL_MS)
    simp only [HEALTH_POLL_INTERVAL_MS] at this ⊢
    omega

/-- The fixed fuel of the `pollHealth` entry point satisfies the adequacy
invariant of the auxiliary loop. -/
lemma pollHealth_fuel_adequate (start timeoutMs : Nat) :
    start + timeoutMs
      ≤ start + (timeoutMs / HEALTH_POLL_INTERVAL_MS + 1) * HEALTH_POLL_INTERVAL_MS := by
  simp only [HEALTH_POLL_INTERVAL_MS]
  omega

/-- Characterization of a successful `setupSandbox`: the health poll
returned ready at some time `ht`, the clock ends at `ht`, and the timing
fields record each stage's duration (the npm install duration, when any,
is recorded nowhere). -/
lemma setupSandbox_err_none (env : SandboxEnv)
    (h : (setupSandbox env).err = none) :
    ∃ ht n,
      pollHealth env.health
          (env.createDur + env.writeDur + installPart env + env.startDur)
          HEALTH_POLL_TIMEOUT_MS
        = PollOutcome.ready ht n
      ∧ (setupSandbox env).endTime = ht
      ∧ (setupSandbox env).timing
        = { sandboxCreate := env.createDur, fileWrite := env.writeDur,
            serverStart := env.startDur,
            healthPoll :=
              ht - (env.createDur + env.writeDur + installPart env + env.startDur),
            agentProcess := 0, total := 0 } := by
  cases hlc : loadAgentConfig env with
  | error e => simp [setupSandbox, hlc] at h
  | ok u =>
    cases hlb : loadAgentBundle env with
    | error e => simp [setupSandbox, hlc, hlb] at h
    | ok u' =>
      cases hcr : env.createOk with
      | false => simp [setupSandbox, hlc, hlb, hcr] at h
      | true =>
        cases hw : env.writeOk with
        | false => simp [setupSandbox, hlc, hlb, hcr, hw] at h
        | true =>
          cases hsnap : env.snapshotId with
          | none =>
            by_cases hie : env.installExitCode = 0
            · cases hp : pollHealth env.health
                  (env.createDur + env.writeDur + env.installDur + env.startDur)
                  HEALTH_POLL_TIMEOUT_MS with
              | timedOut ft =>
                simp [setupSandbox, setupTail, hlc, hlb, hcr, hw, hsnap, hie, hp] at h
              | ready ht n =>
                refine ⟨ht, n, ?_, ?_, ?_⟩ <;>
                  simp [setupSandbox, setupTail, hlc, hlb, hcr, hw, hsnap, hie, hp,
                    installPart, zeroTiming]
            · simp [setupSandbox, hlc, hlb, hcr, hw, hsnap, hie] at h
          | some sid =>
            cases hp : pollHealth env.health
                (env.createDur + env.writeDur + env.startDur)
                HEALTH_POLL_TIMEOUT_MS with
            | timedOut ft =>
              simp [setupSandbox, setupTail, hlc, hlb, hcr, hw, hsnap, hp] at h
            | ready ht n =>
              refine ⟨ht, n, ?_, ?_, ?_⟩ <;>
                simp [setupSandbox, setupTail, hlc, hlb, hcr, hw, hsnap, hp,
                  installPart, zeroTiming]

end Orchestrator

namespace AgentBundle

/-- Looking up the key just written returns the written value. -/
lemma mapGet_mapSet_self (m : List (String × String)) (k v : String) :
    mapGet (mapSet m k v) k = some v := by
  induction m with
  | nil => simp [mapSet, mapGet]
  | cons p rest ih =>
    obtain ⟨ka, va⟩ := p
    by_cases hk : ka = k
    · subst hk
      simp [mapSet, mapGet]
    · simp [mapSet, mapGet, hk, ih]

/-- Writing one key leaves every other key's binding unchanged. -/
lemma mapGet_mapSet_ne (m : List (String × String)) (k v k' : String)
    (h : k' ≠ k) :
    mapGet (mapSet m k v) k' = mapGet m k' := by
  induction m with
  | nil =>
    have hne : ¬(k = k') := fun hh => h hh.symm
    simp [mapSet, mapGet, hne]
  | cons p rest ih =>
    obtain ⟨ka, va⟩ := p
    by_cases hk : ka = k
    · subst hk
      have hne : ¬(ka = k') := fun hh => h hh.symm
      simp [mapSet, mapGet, hne]
    · by_cases ha : ka = k'
      · subst ha
        simp [mapSet, mapGet, hk]
      · simp [mapSet, mapGet, hk, ha, ih]

/-- After folding a turn's events for conversation `cid`, the registry
binding of `cid` is the last truthy `init` token of the stream (or the
prior binding if the stream carried none). -/
lemma foldl_sessions_get_self (cid : String) (hcid : cid ≠ "") :
    ∀ (evs : List SdkMessage) (acc : LoopAcc),
      mapGet ((evs.foldl (processLoopStep (some cid)) acc).sessions) cid
        = (match capturedToken evs with
           | some t => some t
           | none => mapGet acc.sessions cid) := by
  intro evs
  induction evs with
  | nil => intro acc; simp [capturedToken]
  | cons e rest ih =>
    intro acc
    simp only [List.foldl_cons]
    rw [ih]
    cases hc : capturedToken rest with
    | some t => simp [capturedToken, hc]
    | none =>
      simp only [capturedToken, hc]
      cases e with
      | init sid =>
        have hcidb : (cid == "") = false := by simpa using hcid
        by_cases hs : sid = ""
        · subst hs
          simp [processLoopStep, tokenOfMessage, jsTruthy, hcidb]
        · have hsb : (sid == "") = false := by simpa using hs
          simp [processLoopStep, tokenOfMessage, jsTruthy, hcidb, hsb,
            mapGet_mapSet_self]
      | assistant blocks => simp [processLoopStep, tokenOfMessage]
      | resultSuccess st =>
        cases st <;> simp [processLoopStep, tokenOfMessage]
      | resultError => simp [processLoopStep, tokenOfMessage]
      | other => simp [processLoopStep, tokenOfMessage]

/-- Folding a turn's events for one conversation never touches any other
conversation's registry binding. -/
lemma foldl_sessions_get_other (cid : Option String) (k : String)
    (hne : ∀ c, cid = some c → k ≠ c) :
    ∀ (evs : List SdkMessage) (acc : LoopAcc),
      mapGet ((evs.foldl (processLoopStep cid) acc).sessions) k
        = mapGet acc.sessions k := by
  intro evs
  induction evs with
  | nil => intro acc; rfl
  | cons e rest ih =>
    intro acc
    simp only [List.foldl_cons]
    rw [ih]
    cases e with
    | init sid =>
      simp only [processLoopStep]
      by_cases hcond : (jsTruthy cid && !(sid == "")) = true
      · rw [if_pos hcond]
        cases cid with
        | none => simp [jsTruthy] at hcond
        | some c =>
          have hk : k ≠ c := hne c rfl
          simpa [Option.getD] using mapGet_mapSet_ne acc.sessions c sid k hk
      · rw [if_neg hcond]
    | assistant blocks => rfl
    | resultSuccess st => cases st <;> rfl
    | resultError => rfl
    | other => rfl

/-- A fold over events containing no success result leaves the response
text and the structured metadata untouched. -/
lemma foldl_no_success (cid : Option String) :
    ∀ (evs : List SdkMessage), hasResultSuccess evs = false →
      ∀ acc : LoopAcc,
        (evs.foldl (processLoopStep cid) acc).responseText = acc.responseText
          ∧ (evs.foldl (processLoopStep cid) acc).structuredMetadata
              = acc.structuredMetadata := by
  intro evs
  induction evs with
  | nil => intro _ acc; exact ⟨rfl, rfl⟩
  | cons e rest ih =>
    intro h acc
    cases e with
    | init sid =>
      simp only [hasResultSuccess] at h
      simp only [List.foldl_cons]
      have hr := ih h (processLoopStep cid acc (SdkMessage.init sid))
      refine ⟨hr.1.trans ?_, hr.2.trans ?_⟩
      · simp only [processLoopStep]; split <;> rfl
      · simp only [processLoopStep]; split <;> rfl
    | assistant blocks =>
      simp only [hasResultSuccess] at h
      simp only [List.foldl_cons]
      have hr := ih h (processLoopStep cid acc (SdkMessage.assistant blocks))
      exact ⟨hr.1, hr.2⟩
    | resultSuccess st => simp [hasResultSuccess] at h
    | resultError =>
      simp only [hasResultSuccess] at h
      simp only [List.foldl_cons]
      exact ih h _
    | other =>
      simp only [hasResultSuccess] at h
      simp only [List.foldl_cons]
      exact ih h _

/-- Tool uses of a concatenated stream are the concatenated tool uses. -/
lemma toolUses_append (l1 l2 : List SdkMessage) :
    toolUses (l1 ++ l2) = toolUses l1 ++ toolUses l2 := by
  induction l1 with
  | nil => simp [toolUses]
  | cons e rest ih =>
    cases e <;> simp [toolUses, ih]

/-- The fold accumulates exactly the tool uses of the event stream, in
order after the tools already accumulated. -/
lemma foldl_toolsUsed (cid : Option String) :
    ∀ (evs : List SdkMessage) (acc : LoopAcc),
      (evs.foldl (processLoopStep cid) acc).toolsUsed
        = acc.toolsUsed ++ toolUses evs := by
  intro evs
  induction evs with
  | nil => intro acc; simp [toolUses]
  | cons e rest ih =>
    intro acc
    simp only [List.foldl_cons]
    rw [ih]
    cases e with
    | init sid =>
      have hstep : (processLoopStep cid acc (SdkMessage.init sid)).toolsUsed
          = acc.toolsUsed := by
        simp only [processLoopStep]; split <;> rfl
      rw [hstep]
      simp [toolUses]
    | assistant blocks =>
      simp [processLoopStep, toolUses, List.append_assoc]
    | resultSuccess st =>
      cases st <;> simp [processLoopStep, toolUses]
    | resultError => simp [processLoopStep, toolUses]
    | other => simp [processLoopStep, toolUses]

end AgentBundle

section ClaimTheorems

open Orchestrator AgentBundle StreamRelay

/-- C4: in `pollHealth`, every per-attempt failure (connection refused,
non-2xx response, 2-second per-attempt timeout) is swallowed and the poll
is retried after the fixed 500 ms interval — the `checkTime` schedule of
the embedding advances by the attempt duration plus exactly
`HEALTH_POLL_INTERVAL_MS` per retry.  The poll raises an error if and only
if the 30-second deadline elapses with no attempt whose guard check
happens before the deadline returning a success status, and that error is
the `HealthTimeout` one: the only non-ready outcome is
`PollOutcome.timedOut` (mapped to `SbError.healthTimeout` by
`setupSandbox`), raised at or after the deadline. -/
theorem pollHealth_timeout_iff_no_success (oc : Nat → AttemptOutcome) (start : Nat) :
    (∀ t, pollHealth oc start HEALTH_POLL_TIMEOUT_MS = PollOutcome.timedOut t →
      start + HEALTH_POLL_TIMEOUT_MS ≤ t)
    ∧ ((∃ t, pollHealth oc start HEALTH_POLL_TIMEOUT_MS = PollOutcome.timedOut t) ↔
        ¬ ∃ k, checkTime oc 0 start k < start + HEALTH_POLL_TIMEOUT_MS
          ∧ (oc k).isOk = true) := by
  constructor
  · intro t ht
    exact pollHealthAux_timedOut_ge oc (start + HEALTH_POLL_TIMEOUT_MS)
      (HEALTH_POLL_TIMEOUT_MS / HEALTH_POLL_INTERVAL_MS + 1) 0 start t
      (pollHealth_fuel_adequate start HEALTH_POLL_TIMEOUT_MS) ht
  · have h := pollHealthAux_timedOut_iff oc (start + HEALTH_POLL_TIMEOUT_MS)
      (HEALTH_POLL_TIMEOUT_MS / HEALTH_POLL_INTERVAL_MS + 1) 0 start
      (pollHealth_fuel_adequate start HEALTH_POLL_TIMEOUT_MS)
    simpa [pollHealth] using h

/-- Witness for C4 at a health endpoint that always refuses instantly:
the poll times out at exactly the 30 s deadline and no successful check
happens before the deadline. -/
theorem pollHealth_timeout_iff_no_success_witness :
    0 + HEALTH_POLL_TIMEOUT_MS ≤ 30000
    ∧ ¬ ∃ k, checkTime ocFailFast 0 0 k < 0 + HEALTH_POLL_TIMEOUT_MS
        ∧ (ocFailFast k).isOk = true :=
  ⟨(pollHealth_timeout_iff_no_success ocFailFast 0).1 30000 (by decide),
   (pollHealth_timeout_iff_no_success ocFailFast 0).2.mp ⟨30000, by decide⟩⟩

/-- C6 counterexample: with per-attempt failures of 1800 ms (within the
2 s per-attempt cap) a never-healthy provider makes `pollHealth` raise at
32 200 ms, not strictly before 31 s; and with per-attempt failures at the
2 s cap, a provider that starts answering success from attempt 59 on
(59·500 ms = 29.5 s < 30 s) is never seen healthy: the poll times out at
30 s instead of succeeding. -/
theorem pollHealth_timing_cex :
    pollHealth ocFail1800 0 HEALTH_POLL_TIMEOUT_MS = PollOutcome.timedOut 32200
    ∧ ¬ (32200 < 31000)
    ∧ 59 * 500 < 30000
    ∧ pollHealth ocSlowThenOk 0 HEALTH_POLL_TIMEOUT_MS = PollOutcome.timedOut 30000 :=
  ⟨by decide, by decide, by decide, by decide⟩

/-- C6 (amended): a `HealthTimeout` is raised at a time ≥ 30 s after
polling begins, and — given the 2 s per-attempt cap — strictly before
32.5 s (the < 31 s bound of the claim holds only when each failed attempt
settles within 500 ms); and when the first `N` attempts fail, attempt `N`
answers success, and its guard check happens before the deadline (which
holds in particular when the failures are instantaneous and
N·500 ms < 30 s), the poll succeeds after `N + 1` attempts with a
health-poll duration of at least N·500 ms. -/
theorem pollHealth_timing_bounds (oc : Nat → AttemptOutcome) (start N : Nat) :
    (∀ t, pollHealth oc start HEALTH_POLL_TIMEOUT_MS = PollOutcome.timedOut t →
        start + 30000 ≤ t)
    ∧ ((∀ k, (oc k).dur ≤ 2000) →
        ∀ t, pollHealth oc start HEALTH_POLL_TIMEOUT_MS = PollOutcome.timedOut t →
          t < start + 32500)
    ∧ ((∀ j, j < N → (oc j).isOk = false) → (oc N).isOk = true →
        checkTime oc 0 start N < start + 30000 →
        ∃ t, pollHealth oc start HEALTH_POLL_TIMEOUT_MS = PollOutcome.ready t (N + 1)
          ∧ start + N * 500 ≤ t) := by
  refine ⟨?_, ?_, ?_⟩
  · intro t ht
    have h := pollHealthAux_timedOut_ge oc (start + HEALTH_POLL_TIMEOUT_MS)
      (HEALTH_POLL_TIMEOUT_MS / HEALTH_POLL_INTERVAL_MS + 1) 0 start t
      (pollHealth_fuel_adequate start HEALTH_POLL_TIMEOUT_MS) ht
    simpa [HEALTH_POLL_TIMEOUT_MS] using h
  · intro hcap t ht
    have hlt : start < (start + HEALTH_POLL_TIMEOUT_MS) + 2500 := by
      simp only [HEALTH_POLL_TIMEOUT_MS]
      omega
    have h := pollHealthAux_timedOut_lt oc (start + HEALTH_POLL_TIMEOUT_MS) hcap
      (HEALTH_POLL_TIMEOUT_MS / HEALTH_POLL_INTERVAL_MS + 1) 0 start t hlt ht
    simp only [HEALTH_POLL_TIMEOUT_MS] at h ⊢
    omega
  · intro hfail hok hct
    have hready := pollHealthAux_first_ok oc (start + HEALTH_POLL_TIMEOUT_MS) N
      (HEALTH_POLL_TIMEOUT_MS / HEALTH_POLL_INTERVAL_MS + 1) 0 start
      (pollHealth_fuel_adequate start HEALTH_POLL_TIMEOUT_MS)
      (by simpa using hfail) (by simpa using hok)
      (by simpa [HEALTH_POLL_TIMEOUT_MS] using hct)
    refine ⟨checkTime oc 0 start N + (oc N).dur, ?_, ?_⟩
    · simpa [pollHealth] using hready
    · have hlow := checkTime_lower oc N 0 start
      simp only [HEALTH_POLL_INTERVAL_MS] at hlow
      omega

/-- Witness for C6 (amended) at a provider that fails instantly three
times and then answers: the poll succeeds after 4 attempts at time
1500 ms ≥ 3·500 ms. -/
theorem pollHealth_timing_bounds_witness :
    ∃ t, pollHealth ocThreeThenOk 0 HEALTH_POLL_TIMEOUT_MS
        = PollOutcome.ready t (3 + 1) ∧ 0 + 3 * 500 ≤ t :=
  (pollHealth_timing_bounds ocThreeThenOk 0 3).2.2
    (by decide) (by decide) (by decide)

/-- C5: for every request whose agent configuration bundle (`CLAUDE.md`
or `agent-config.json`) is missing on the controlling host, both the
buffered and the streaming execution fail with the `ConfigNotFound` class
of error (`SbError.configNotFound`) before any provider call: the
provider trace is empty — no `create`, `writeFiles`, `runCommand`,
`domain` or `stop` is ever issued. -/
theorem configNotFound_before_provider_calls (env : SandboxEnv)
    (h : env.claudeMdExists = false ∨ env.configJsonExists = false) :
    ((executeInSandbox env).trace = []
      ∧ ∃ w, (executeInSandbox env).result
          = Except.error (SbError.configNotFound w))
    ∧ ((executeInSandboxStream env).trace = []
      ∧ ∃ w, (executeInSandboxStream env).result
          = Except.error (SbError.configNotFound w)) := by
  have hcfg : ∃ w, loadAgentConfig env = Except.error (SbError.configNotFound w) := by
    cases hd : env.agentDirExists with
    | false => exact ⟨"agent config directory", by simp [loadAgentConfig, hd]⟩
    | true =>
      cases hmd : env.claudeMdExists with
      | false => exact ⟨"CLAUDE.md", by simp [loadAgentConfig, hd, hmd]⟩
      | true =>
        cases hcj : env.configJsonExists with
        | false => exact ⟨"agent-config.json", by simp [loadAgentConfig, hd, hmd, hcj]⟩
        | true =>
          rw [hmd, hcj] at h
          simp at h
  obtain ⟨w, hw⟩ := hcfg
  refine ⟨⟨?_, ⟨w, ?_⟩⟩, ⟨?_, ⟨w, ?_⟩⟩⟩ <;>
    simp [executeInSandbox, executeInSandboxStream, setupSandbox, hw]

/-- Witness for C5: an otherwise healthy environment whose `CLAUDE.md` is
missing performs zero provider calls and fails with `ConfigNotFound`. -/
theorem configNotFound_before_provider_calls_witness :
    ((executeInSandbox envNoClaudeMd).trace = []
      ∧ ∃ w, (executeInSandbox envNoClaudeMd).result
          = Except.error (SbError.configNotFound w))
    ∧ ((executeInSandboxStream envNoClaudeMd).trace = []
      ∧ ∃ w, (executeInSandboxStream envNoClaudeMd).result
          = Except.error (SbError.configNotFound w)) :=
  configNotFound_before_provider_calls envNoClaudeMd (Or.inl rfl)

/-- C7: every `POST /process` body missing the `message` field or the
`agentId` field is answered with HTTP 400 and a non-empty `error` field,
and the request performs zero provider calls (`executeInSandbox` is never
reached, so no sandbox is created). -/
theorem process_missing_field_400 (b : ProcessBody) (env : SandboxEnv)
    (h : b.message = none ∨ b.agentId = none) :
    (handleProcess b env).1.status = 400
    ∧ (∃ e, (handleProcess b env).1.error = some e ∧ e ≠ "")
    ∧ (handleProcess b env).2 = [] := by
  by_cases hm : jsTruthy b.message = true
  · have ha : b.agentId = none := by
      cases h with
      | inl hm' => rw [hm'] at hm; simp [jsTruthy] at hm
      | inr ha' => exact ha'
    have hta : jsTruthy b.agentId = false := by simp [ha, jsTruthy]
    refine ⟨?_, ⟨"agentId is required", ?_, by decide⟩, ?_⟩ <;>
      simp [handleProcess, hm, hta]
  · have hm' : jsTruthy b.message = false := by
      simpa using hm
    refine ⟨?_, ⟨"message is required", ?_, by decide⟩, ?_⟩ <;>
      simp [handleProcess, hm']

/-- Witness for C7: the body `{message: "hi"}` with no `agentId` gets a
400 with a non-empty error and an empty provider trace. -/
theorem process_missing_field_400_witness :
    (handleProcess bodyNoAgent envAllOk).1.status = 400
    ∧ (∃ e, (handleProcess bodyNoAgent envAllOk).1.error = some e ∧ e ≠ "")
    ∧ (handleProcess bodyNoAgent envAllOk).2 = [] :=
  process_missing_field_400 bodyNoAgent envAllOk (Or.inr rfl)

/-- C1 (code bug): evaluation at the failing inputs.  In a request where
the sandbox is created but `writeFiles` rejects, `executeInSandbox`
issues `create` and `writeFiles` and zero `stop` calls — the source
assigns its local `sandbox` variable only after `setupSandbox` returns,
so its `finally` block sees `null` and the created sandbox leaks.  In a
streaming request where setup succeeds but the proxied fetch rejects,
`executeInSandboxStream` likewise issues zero `stop` calls: the rejection
propagates past the explicit `stop` of the non-2xx branch. -/
theorem sandbox_leak_on_setup_or_stream_failure :
    ((executeInSandbox envLeakWrite).trace = [PCall.create, PCall.writeFiles]
      ∧ countStop (executeInSandbox envLeakWrite).trace = 0
      ∧ (executeInSandbox envLeakWrite).result = Except.error SbError.writeFailed)
    ∧ ((executeInSandboxStream envLeakFetch).trace
        = [PCall.create, PCall.writeFiles, PCall.runCommand, PCall.domain]
      ∧ countStop (executeInSandboxStream envLeakFetch).trace = 0
      ∧ (executeInSandboxStream envLeakFetch).result
          = Except.error SbError.fetchFailed) :=
  ⟨⟨rfl, rfl, rfl⟩, ⟨rfl, rfl, rfl⟩⟩

/-- C8 counterexample: a successful buffered request with no snapshot and
a 5-second npm install returns `total = 5335` ms against a parts sum of
335 ms — the total is not within 1 ms of the sum of the parts, because the
installation time is recorded in no timing field. -/
theorem timing_total_within_1ms_cex :
    (executeInSandbox envInstallSlow).result
      = Except.ok ("ok",
          { sandboxCreate := 100, fileWrite := 10, serverStart := 5,
            healthPoll := 20, agentProcess := 200, total := 5335 })
    ∧ ¬ (5335 ≤ 100 + 10 + 5 + 20 + 200 + 1) :=
  ⟨rfl, by decide⟩

/-- C8 (amended): for every successful buffered request, all timing fields
are natural numbers (non-negative) and `total` equals the sum of the five
parts plus the unmeasured npm-install duration — so `total ≥` the sum of
parts always, and the claim's 1 ms tolerance holds exactly when a snapshot
is used (or the install is instantaneous), not in general. -/
theorem timing_total_eq_parts_plus_install (env : SandboxEnv) (p : String)
    (t : ExecutionTiming)
    (h : (executeInSandbox env).result = Except.ok (p, t)) :
    t.sandboxCreate + t.fileWrite + t.serverStart + t.healthPoll + t.agentProcess
      ≤ t.total
    ∧ t.total
      = t.sandboxCreate + t.fileWrite + t.serverStart + t.healthPoll
        + t.agentProcess + installPart env := by
  cases hse : (setupSandbox env).err with
  | some e => simp [executeInSandbox, hse] at h
  | none =>
    cases hft : env.fetchThrows with
    | true => simp [executeInSandbox, hse, hft] at h
    | false =>
      cases hfo : env.fetchOk with
      | false => simp [executeInSandbox, hse, hft, hfo] at h
      | true =>
        simp [executeInSandbox, hse, hft, hfo] at h
        obtain ⟨hp1, hp2⟩ := h
        obtain ⟨ht, n, hpoll, hend, htm⟩ := setupSandbox_err_none env hse
        have hge : env.createDur + env.writeDur + installPart env + env.startDur ≤ ht :=
          pollHealthAux_ready_ge env.health
            (env.createDur + env.writeDur + installPart env + env.startDur
              + HEALTH_POLL_TIMEOUT_MS)
            (HEALTH_POLL_TIMEOUT_MS / HEALTH_POLL_INTERVAL_MS + 1) 0
            (env.createDur + env.writeDur + installPart env + env.startDur) ht n
            (by simpa [pollHealth] using hpoll)
        rw [← hp2]
        simp only [htm, hend]
        constructor
        · omega
        · omega

/-- Witness for C8 (amended) at a fully healthy snapshot-backed request:
the zero timing record satisfies both the bound and the equation. -/
theorem timing_total_eq_parts_plus_install_witness :
    zeroTiming.sandboxCreate + zeroTiming.fileWrite + zeroTiming.serverStart
        + zeroTiming.healthPoll + zeroTiming.agentProcess
      ≤ zeroTiming.total
    ∧ zeroTiming.total
      = zeroTiming.sandboxCreate + zeroTiming.fileWrite + zeroTiming.serverStart
        + zeroTiming.healthPoll + zeroTiming.agentProcess + installPart envAllOk :=
  timing_total_eq_parts_plus_install envAllOk "ok" zeroTiming rfl

/-- C2 counterexample: the session registry is the in-process
`activeSessions` map of the agent bundle, which runs inside the sandbox,
and every turn is served by a freshly provisioned sandbox whose process
starts with an empty registry.  A first turn for conversation `conv-1`
captures token `tok-1` into its own process's registry, but a second turn
for the same conversation in a fresh process (empty registry) issues its
SDK invocation with no resume token at all — not with `tok-1` as the
claim requires. -/
theorem session_not_resumed_across_fresh_sandboxes :
    (processMessage [] (some "conv-1") [SdkMessage.init "tok-1"]).sessions
      = [("conv-1", "tok-1")]
    ∧ (processMessage [] (some "conv-1") []).resume = none
    ∧ (none : Option String) ≠ some "tok-1" :=
  ⟨rfl, rfl, by simp⟩

/-- C2 (amended): within one agent-runtime process (one registry), a
second turn for the same conversation identifier includes exactly the
token captured from the first turn's event stream, and a turn for one
conversation never touches any other conversation's registry entry (no
cross-contamination).  Across independently provisioned sandboxes the
registry starts empty, so resumption does not carry over (see the
counterexample). -/
theorem session_continuity_within_process
    (m : List (String × String)) (c1 c2 tok : String)
    (evts1 evts2 : List SdkMessage)
    (hc1 : c1 ≠ "") (htok : tok ≠ "") (hcap : capturedToken evts1 = some tok)
    (hne : c2 ≠ c1) :
    (processMessage (processMessage m (some c1) evts1).sessions
        (some c1) evts2).resume = some tok
    ∧ mapGet (processMessage m (some c1) evts1).sessions c2 = mapGet m c2 := by
  have hb : (c1 == "") = false := by simpa using hc1
  have htb : (tok == "") = false := by simpa using htok
  have hsess : mapGet (processMessage m (some c1) evts1).sessions c1 = some tok := by
    have hh := foldl_sessions_get_self c1 hc1 evts1
      { sessions := m, toolsUsed := [], responseText := "", structuredMetadata := none }
    rw [hcap] at hh
    simpa [processMessage] using hh
  have hres : ∀ (mm : List (String × String)) (evs : List SdkMessage),
      mapGet mm c1 = some tok →
      (processMessage mm (some c1) evs).resume = some tok := by
    intro mm evs hmm
    simp [processMessage, jsTruthy, hb, Option.getD, hmm, htb]
  constructor
  · exact hres _ evts2 hsess
  · have hfun : ∀ c, (some c1 : Option String) = some c → c2 ≠ c := by
      intro c hc
      injection hc with hc'
      rw [← hc']
      exact hne
    have hother := foldl_sessions_get_other (some c1) c2 hfun evts1
      { sessions := m, toolsUsed := [], responseText := "", structuredMetadata := none }
    simpa [processMessage] using hother

/-- Witness for C2 (amended): conversation `a` captures token `t` on its
first turn and resumes with it on its second turn within the same
process, while conversation `b`'s (absent) entry is untouched. -/
theorem session_continuity_within_process_witness :
    (processMessage (processMessage [] (some "a") [SdkMessage.init "t"]).sessions
        (some "a") []).resume = some "t"
    ∧ mapGet (processMessage [] (some "a") [SdkMessage.init "t"]).sessions "b"
      = mapGet [] "b" :=
  session_continuity_within_process [] "a" "b" "t" [SdkMessage.init "t"] []
    (by decide) (by decide) (by decide) (by decide)

/-- C10: when the SDK message stream completes with a single success
result carrying no structured output, `processMessage` resolves (the loop
body is total — no exception is raised) with the fixed apology response
string, and its `confidence` falls back to `"high"` when at least one
tool was used and `"medium"` otherwise. -/
theorem processMessage_no_structured_fallback
    (m : List (String × String)) (cid : Option String)
    (evs1 evs2 : List SdkMessage)
    (h1 : hasResultSuccess evs1 = false) (h2 : hasResultSuccess evs2 = false) :
    (processMessage m cid
        (evs1 ++ SdkMessage.resultSuccess none :: evs2)).result.response
      = apologyMessage
    ∧ (processMessage m cid
        (evs1 ++ SdkMessage.resultSuccess none :: evs2)).result.confidence
      = (if (toolUses (evs1 ++ SdkMessage.resultSuccess none :: evs2)).length > 0
          then "high" else "medium") := by
  have hfold : (evs1 ++ SdkMessage.resultSuccess none :: evs2).foldl
        (processLoopStep cid)
        { sessions := m, toolsUsed := [], responseText := "",
          structuredMetadata := none }
      = evs2.foldl (processLoopStep cid)
          (processLoopStep cid
            (evs1.foldl (processLoopStep cid)
              { sessions := m, toolsUsed := [], responseText := "",
                structuredMetadata := none })
            (SdkMessage.resultSuccess none)) := by
    rw [List.foldl_append, List.foldl_cons]
  have hm1 := foldl_no_success cid evs1 h1
    { sessions := m, toolsUsed := [], responseText := "",
      structuredMetadata := none }
  have hmidR : (processLoopStep cid
      (evs1.foldl (processLoopStep cid)
        { sessions := m, toolsUsed := [], responseText := "",
          structuredMetadata := none })
      (SdkMessage.resultSuccess none)).responseText = apologyMessage := by
    simp [processLoopStep]
  have hmidM : (processLoopStep cid
      (evs1.foldl (processLoopStep cid)
        { sessions := m, toolsUsed := [], responseText := "",
          structuredMetadata := none })
      (SdkMessage.resultSuccess none)).structuredMetadata = none := by
    simp [processLoopStep, hm1.2]
  have hmidT : (processLoopStep cid
      (evs1.foldl (processLoopStep cid)
        { sessions := m, toolsUsed := [], responseText := "",
          structuredMetadata := none })
      (SdkMessage.resultSuccess none)).toolsUsed = toolUses evs1 := by
    simp [processLoopStep, foldl_toolsUsed]
  have h2' := foldl_no_success cid evs2 h2
    (processLoopStep cid
      (evs1.foldl (processLoopStep cid)
        { sessions := m, toolsUsed := [], responseText := "",
          structuredMetadata := none })
      (SdkMessage.resultSuccess none))
  have hfinalR : (evs2.foldl (processLoopStep cid)
      (processLoopStep cid
        (evs1.foldl (processLoopStep cid)
          { sessions := m, toolsUsed := [], responseText := "",
            structuredMetadata := none })
        (SdkMessage.resultSuccess none))).responseText = apologyMessage := by
    rw [h2'.1, hmidR]
  have hfinalM : (evs2.foldl (processLoopStep cid)
      (processLoopStep cid
        (evs1.foldl (processLoopStep cid)
          { sessions := m, toolsUsed := [], responseText := "",
            structuredMetadata := none })
        (SdkMessage.resultSuccess none))).structuredMetadata = none := by
    rw [h2'.2, hmidM]
  have hfinalT : (evs2.foldl (processLoopStep cid)
      (processLoopStep cid
        (evs1.foldl (processLoopStep cid)
          { sessions := m, toolsUsed := [], responseText := "",
            structuredMetadata := none })
        (SdkMessage.resultSuccess none))).toolsUsed
      = toolUses evs1 ++ toolUses evs2 := by
    rw [foldl_toolsUsed, hmidT]
  constructor
  · simp only [processMessage, hfold]
    exact hfinalR
  · simp only [processMessage, hfold]
    rw [hfinalM, hfinalT]
    have hlen : (toolUses (evs1 ++ SdkMessage.resultSuccess none :: evs2)).length
        = (toolUses evs1).length + (toolUses evs2).length := by
      simp [toolUses_append, toolUses]
    rw [hlen]
    simp [jsOrStr]

/-- Witness for C10: a stream that uses one tool and then reports success
without structured output yields the apology with confidence high. -/
theorem processMessage_no_structured_fallback_witness :
    (processMessage [] none
        ([SdkMessage.assistant [SdkBlock.toolUse "Read"]]
          ++ SdkMessage.resultSuccess none :: [])).result.response
      = apologyMessage
    ∧ (processMessage [] none
        ([SdkMessage.assistant [SdkBlock.toolUse "Read"]]
          ++ SdkMessage.resultSuccess none :: [])).result.confidence
      = (if (toolUses ([SdkMessage.assistant [SdkBlock.toolUse "Read"]]
              ++ SdkMessage.resultSuccess none :: [])).length > 0
          then "high" else "medium") :=
  processMessage_no_structured_fallback [] none
    [SdkMessage.assistant [SdkBlock.toolUse "Read"]] [] rfl rfl

/-- C3: in `getEffectiveSettings`, for every base configuration and every
modality whose override record is in effect, an explicit tool allow-list
replaces the base allow-list (the deny-list, if also given, is then
subtracted from that new list — the explicit allow-list, not the base,
is what the deny-list applies to); a deny-list given without an
allow-list is subtracted from the base list.  The same replace/subtract
pattern applies independently to the MCP server set: an enable-list makes
the enabled names the allow-set in effect (restricting the configured
server map to them, then subtracting the disable-list), and a
disable-list alone is subtracted from the base map.  The resolver is a
pure Lean function, so same inputs give identical results by
construction. -/
theorem effectiveSettings_override_composition
    (config : AgentConfig) (modality : Option String)
    (s : ModalityRuntimeSettings)
    (hmod : modalityOverride config modality = some s) :
    (∀ ts, s.toolSettings = some ts →
      (∀ l, ts.allowedTools = some l →
        (getEffectiveSettings config modality).allowedTools
          = (match ts.disabledTools with
             | some d => l.filter (fun x => !(d.contains x))
             | none => l))
      ∧ (∀ d, ts.allowedTools = none → ts.disabledTools = some d →
        (getEffectiveSettings config modality).allowedTools
          = config.allowedTools.filter (fun x => !(d.contains x))))
    ∧ (∀ ms, s.mcpSettings = some ms →
      (∀ e, ms.enabledServers = some e →
        (getEffectiveSettings config modality).mcpServers
          = (match ms.disabledServers with
             | some d =>
               (config.mcpServers.filter (fun p => e.contains p.1)).filter
                 (fun p => !(d.contains p.1))
             | none => config.mcpServers.filter (fun p => e.contains p.1)))
      ∧ (∀ d, ms.enabledServers = none → ms.disabledServers = some d →
        (getEffectiveSettings config modality).mcpServers
          = config.mcpServers.filter (fun p => !(d.contains p.1)))) := by
  constructor
  · intro ts hts
    constructor
    · intro l hl
      cases hd : ts.disabledTools with
      | some d => simp [getEffectiveSettings, hmod, hts, hl, hd]
      | none => simp [getEffectiveSettings, hmod, hts, hl, hd]
    · intro d hnone hd
      simp [getEffectiveSettings, hmod, hts, hnone, hd]
  · intro ms hms
    constructor
    · intro e he
      cases hd : ms.disabledServers with
      | some d => simp [getEffectiveSettings, hmod, hms, he, hd]
      | none => simp [getEffectiveSettings, hmod, hms, he, hd]
    · intro d hnone hd
      simp [getEffectiveSettings, hmod, hms, hnone, hd]

/-- Witness for C3: a chat override with allow-list `[Read, Edit]` and
deny-list `[Edit]` yields exactly `[Read]`, and an MCP enable-list
`[srvA]` restricts the two configured servers to `srvA`. -/
theorem effectiveSettings_override_composition_witness :
    (getEffectiveSettings cfgW (some "chat")).allowedTools = ["Read"]
    ∧ (getEffectiveSettings cfgW (some "chat")).mcpServers = [("srvA", "a")] := by
  have h := effectiveSettings_override_composition cfgW (some "chat") sW rfl
  have h1 := (h.1 tsW rfl).1 ["Read", "Edit"] rfl
  have h2 := (h.2 msW rfl).1 ["srvA"] rfl
  exact ⟨by simpa [tsW] using h1, by simpa [msW, cfgW] using h2⟩

/-- C9 counterexample: on the one-chunk upstream `[[104]]`, the
`new Response(stream)`-plus-`pipeTo` variant delivers nothing to the
caller (the response body stream is already locked by the internal drain
when the server tries to read it), while the `TransformStream` variant
delivers the chunk — the two handlers are not behaviorally equivalent. -/
theorem stream_relay_variants_cex :
    relayResponseVariant [[104]] none = { delivered := none, cleanups := 1 }
    ∧ relayTransformVariant [[104]] none = { delivered := some [[104]], cleanups := 1 }
    ∧ (relayResponseVariant [[104]] none).delivered
        ≠ (relayTransformVariant [[104]] none).delivered :=
  ⟨rfl, rfl, by decide⟩

/-- C9 (amended): both streaming gateway variants invoke `cleanup`
exactly once after the relay completes or aborts, and the
`TransformStream` variant delivers exactly the relayed upstream bytes
(all of them, or the prefix piped before an abort); but the
`Response(stream)`-plus-`pipeTo` variant delivers nothing, because its
internal drain locks the single upstream stream that is also the response
body — so the variants agree on cleanup but not on delivery, and are not
behaviorally equivalent. -/
theorem stream_relay_variants_behavior (upstream : List Chunk)
    (abortAfter : Option Nat) :
    (relayResponseVariant upstream abortAfter).cleanups = 1
    ∧ (relayTransformVariant upstream abortAfter).cleanups = 1
    ∧ (relayTransformVariant upstream abortAfter).delivered
        = some (match abortAfter with
                | none => upstream
                | some k => upstream.take k)
    ∧ (relayResponseVariant upstream abortAfter).delivered = none := by
  refine ⟨rfl, rfl, ?_, rfl⟩
  cases abortAfter <;> simp [relayTransformVariant, pipeToDrain, readBodyAll]

end ClaimTheorems
